import Mathlib

/-!
# checkup: the Zookeeper checker (`zkchecker.go`) and the SNS notifier (`sns.go`)

A shallow embedding of `ZkChecker.Check`, `ZkChecker.doChecks`,
`ZkChecker.conclude`, `SNS.Notify` and `SNS.sendNotification`, followed by the
properties of the quorum verdict, of the status classification and of the
notification loop.

Conventions of the embedding:

* `time.Duration` is an `int64` count of nanoseconds. The checker only compares
  durations, it never adds them, so they are modelled as `Int`.
* The Zookeeper client library (`zk.FLWSrvr`, `zk.FLWRuok`), the clock and the
  shared result code of the package (`Result`, `Attempt`, `ComputeStats`,
  `Timestamp`) are outside the two source files. The types are modelled from
  the data model of the specification; the functions are parameters.
* A run that stops with a run-time panic returns nothing: `doChecks` and
  `Check` return an `Option`, and `none` is the panic of `make` on a length
  that is negative or above what the runtime allocates.
-/

namespace Checkup

/-! ## Data model -/

/-- Go's `time.Duration`: nanoseconds. -/
abbrev Duration := Int

/-- One nanosecond-based second, `time.Second`. -/
def Second : Duration := 1000000000

/-- One millisecond, `time.Millisecond`. -/
def Millisecond : Duration := 1000000

/-- Modelled from the spec: the `Attempt` record of the shared result code (its
declaration is not in the source files). One probe execution: a round trip
time and an error description, the empty string meaning no error. -/
structure Attempt where
  RTT : Duration
  Error : String
  deriving DecidableEq

/-- Modelled from the spec: the `Attempts` slice type, an ordered sequence of
attempts. -/
abbrev Attempts := List Attempt

/-- Modelled from the spec: the `Result` record of the shared result code (its
declaration is not in the source files), restricted to the fields the checker
and the conclusion read or write: title, timestamp, attempts, the configured
threshold, the three status flags and the notice. -/
structure Result where
  Title : String
  Timestamp : Int
  Times : Attempts
  ThresholdRTT : Duration
  Healthy : Bool
  Degraded : Bool
  Down : Bool
  Notice : String
  deriving DecidableEq

/-- Modelled from the spec: the statistics record returned by `ComputeStats`
(not in the source files). Only the median is read by `conclude`. -/
structure Stats where
  Median : Duration
  deriving DecidableEq

/-- The `ZkChecker` configuration record. `Attempts` is a Go `int`, so it may
be zero or negative. The embedding holds it as an integer; `doChecks` returns
attempts only for a count between 0 and the allocation limit of the run, which
is a value of an `int`. -/
structure ZkChecker where
  Name : String
  Servers : List String
  Timeout : Duration
  Detailed : Bool
  ThresholdRTT : Duration
  Attempts : Int
  deriving DecidableEq

/-- Modelled from the spec: the per-node role of the detailed protocol
(`zk.Mode` of the client library), with the variants Follower, Leader,
Standalone and Unknown. -/
inductive Mode where
  | ModeUnknown
  | ModeLeader
  | ModeFollower
  | ModeStandalone
  deriving DecidableEq

open Mode

/-- The largest number of bytes the Go runtime gives to one slice, `maxAlloc`
of a 64-bit host: 2 ^ 48. -/
def maxAlloc : Nat := 281474976710656

/-- The size in bytes of one `Attempt`: a duration of 8 bytes and a string
header of 16 bytes. -/
def attemptSize : Nat := 24

/-- The collaborators of one run of the checker. `FLWSrvr i servers timeout`
and `FLWRuok i servers timeout` are the answers of the client library to the
query issued by attempt number `i`; `since i` is the time measured by attempt
`i`; `Timestamp` is the value of `Timestamp()`; `ComputeStats` is the shared
statistics function and `fmtDuration` renders a duration for the `%s` verb.
`makeLimit` is the largest length for which `make(Attempts, n)` delivers a
slice in this run: the runtime panics when the slice would take more than
`maxAlloc` bytes, so the limit is at most `maxAlloc / attemptSize`, and it is
less when memory is short. -/
structure Env where
  FLWSrvr : Nat → List String → Duration → List Mode × Bool
  FLWRuok : Nat → List String → Duration → List Bool
  since : Nat → Duration
  Timestamp : Int
  ComputeStats : Result → Stats
  fmtDuration : Duration → String
  makeLimit : Nat
  makeLimit_le : makeLimit * attemptSize ≤ maxAlloc

/-! ## The quorum verdict of one attempt -/

/-- The variables of the detailed branch of `doChecks`: the two counters, the
running verdict and the standalone marker. -/
structure RoleState where
  followers : Nat
  leaders : Nat
  ok : Bool
  standalone : Bool
  deriving DecidableEq

/-- One iteration of `for _, stat := range results`, the `switch stat.Mode`.
`n` is `len(results)`. -/
def roleStep (n : Nat) (s : RoleState) (mode : Mode) : RoleState :=
  match mode with
  | ModeFollower => { s with followers := s.followers + 1 }
  | ModeLeader => { s with leaders := s.leaders + 1 }
  | ModeUnknown => { s with ok := false }
  | ModeStandalone => { s with ok := s.ok && decide (n = 1), standalone := true }

/-- The whole role-counting loop over `results`, started from the verdict `ok`
returned by `zk.FLWSrvr` and from zero counters. -/
def roleLoop (results : List Mode) (ok : Bool) : RoleState :=
  results.foldl (roleStep results.length) { followers := 0, leaders := 0, ok := ok, standalone := false }

/-- The verdict of one attempt in detailed mode: the role-counting loop, then
the leader and follower consistency check unless a standalone node was seen. -/
def detailedOk (results : List Mode) (ok : Bool) : Bool :=
  let s := roleLoop results ok
  if !s.standalone then
    s.ok && decide (s.leaders = 1) && decide (s.leaders + s.followers = results.length)
  else
    s.ok

/-- The verdict of one attempt in plain mode: `ok = true`, then
`ok = ok && imok` for every answer. -/
def plainOk (results : List Bool) : Bool :=
  results.foldl (fun ok imok => ok && imok) true

/-- The verdict computed by the body of the attempt loop for attempt `i`. -/
def attemptOk (env : Env) (c : ZkChecker) (timeout : Duration) (i : Nat) : Bool :=
  if c.Detailed then
    detailedOk (env.FLWSrvr i c.Servers timeout).1 (env.FLWSrvr i c.Servers timeout).2
  else
    plainOk (env.FLWRuok i c.Servers timeout)

/-! ## The attempt runner -/

/-- The fixed error text of a failed attempt. -/
def nodesReportedErrors : String := "one or more nodes reported errors"

/-- The body of the attempt loop of `doChecks` for index `i`, returning the
value of `checks[i]` at the end of the iteration. `err` is the variable
`var err error` declared before the loop. -/
def doCheck (env : Env) (c : ZkChecker) (timeout : Duration) (err : Option String) (i : Nat) : Attempt :=
  let check : Attempt := { RTT := 0, Error := "" }
  let ok := attemptOk env c timeout i
  let check := if !ok then { check with Error := nodesReportedErrors } else check
  let check := { check with RTT := env.since i }
  match err with
  | some e => { check with Error := e }
  | none => check

/-- The function `doChecks`. The slice is made with `make(Attempts,
c.Attempts)`, which panics for a negative length and for a length above the
allocation limit of the run: that is `none`. Iteration `i` writes `checks[i]`
only, and `ok` is assigned afresh in both branches before it is read, so the
loop is a map over the indices. `err` is never assigned, it stays `nil`. -/
def doChecks (env : Env) (c : ZkChecker) : Option Attempts :=
  let err : Option String := none
  let timeout := if c.Timeout = 0 then 1 * Second else c.Timeout
  if c.Attempts < 0 ∨ (env.makeLimit : Int) < c.Attempts then none
  else some ((List.range c.Attempts.toNat).map (doCheck env c timeout err))

/-! ## The conclusion -/

/-- The notice of a degraded result, the `Sprintf` with the single `%s` verb. -/
def thresholdNotice (fmtDuration : Duration → String) (threshold : Duration) : String :=
  "median round trip time exceeded threshold (" ++ fmtDuration threshold ++ ")"

/-- The function `conclude`. The `for` loop returns at the first attempt with a
non-empty error, which is the `any` below. -/
def conclude (ComputeStats : Result → Stats) (fmtDuration : Duration → String) (c : ZkChecker) (result : Result) : Result :=
  let result := { result with ThresholdRTT := c.ThresholdRTT }
  if result.Times.any (fun a => a.Error != "") then
    { result with Down := true }
  else if c.ThresholdRTT > 0 then
    let stats := ComputeStats result
    if stats.Median > c.ThresholdRTT then
      { result with Notice := thresholdNotice fmtDuration c.ThresholdRTT, Degraded := true }
    else
      { result with Healthy := true }
  else
    { result with Healthy := true }

/-- The function `Check`: the returned pair is the result and the error, which
is `none` for `nil`. The outer `Option` is `none` when the run panics in
`doChecks` and returns nothing. -/
def Check (env : Env) (c : ZkChecker) : Option (Result × Option String) :=
  let c := if c.Attempts < 1 then { c with Attempts := 1 } else c
  let result : Result := { Title := c.Name, Timestamp := env.Timestamp, Times := [], ThresholdRTT := 0, Healthy := false, Degraded := false, Down := false, Notice := "" }
  match doChecks env c with
  | none => none
  | some times =>
    let result := { result with Times := times }
    some (conclude env.ComputeStats env.fmtDuration c result, none)

/-- Exactly one of the three status flags is set. -/
def exactlyOneStatus (r : Result) : Prop :=
  (r.Healthy = true ∧ r.Degraded = false ∧ r.Down = false) ∨
  (r.Healthy = false ∧ r.Degraded = true ∧ r.Down = false) ∨
  (r.Healthy = false ∧ r.Degraded = false ∧ r.Down = true)

/-- The configuration `Check` works with: the attempt count raised to 1. -/
def clampAttempts (c : ZkChecker) : ZkChecker :=
  if c.Attempts < 1 then { c with Attempts := 1 } else c

/-- The timeout `doChecks` passes to the client library: one second when none
is configured. -/
def effectiveTimeout (c : ZkChecker) : Duration :=
  if c.Timeout = 0 then 1 * Second else c.Timeout

/-! ## Concrete collaborators

Instances of the two function parameters, used to run the definitions on
concrete inputs. -/

/-- Modelled from the spec: the median round trip time across all attempts, as
computed by the shared statistics function `ComputeStats` (not in the source
files). The round trip times are sorted; the median is the middle one, or the
mean of the two middle ones when their number is even. -/
def medianRTT (times : Attempts) : Duration :=
  let sorted := (times.map (fun a => a.RTT)).insertionSort (fun a b => a ≤ b)
  let half := sorted.length / 2
  if sorted.length % 2 = 0 then
    Int.tdiv (sorted.getD (half - 1) 0 + sorted.getD half 0) 2
  else
    sorted.getD half 0

/-- Modelled from the spec: `ComputeStats` (not in the source files), reduced
to the median it delivers to `conclude`. -/
def ComputeStats (r : Result) : Stats :=
  { Median := medianRTT r.Times }

/-- The digit loop of `fmtFrac` of Go's package `time`: the `prec` low digits
of `v` are put in front of `buf`, trailing zeros omitted. -/
def fmtFracDigits : Nat → Nat → Bool → String → String × Nat × Bool
  | 0, v, print, buf => (buf, v, print)
  | prec + 1, v, print, buf =>
    let digit := v % 10
    let print := print || decide (digit ≠ 0)
    let buf := if print then String.singleton (Nat.digitChar digit) ++ buf else buf
    fmtFracDigits prec (v / 10) print buf

/-- The function `fmtFrac` of Go's package `time`: the fraction of
`v / 10 ^ prec` in front of `buf`, and the integer part. -/
def fmtFrac (buf : String) (v : Nat) (prec : Nat) : String × Nat :=
  let r := fmtFracDigits prec v false buf
  (if r.2.2 then "." ++ r.1 else r.1, r.2.1)

/-- The function `fmtInt` of Go's package `time`: the decimal digits of `v` in
front of `buf`. -/
def fmtInt (buf : String) (v : Nat) : String :=
  Nat.repr v ++ buf

/-- The method `Duration.String` of Go's package `time`, which the `%s` verb
calls: `50ms`, `1.5s`, `1h0m0s`. -/
def durationString (d : Duration) : String :=
  let u := d.natAbs
  let body :=
    if u < 1000000000 then
      if u = 0 then "0s"
      else if u < 1000 then
        let r := fmtFrac "ns" u 0
        fmtInt r.1 r.2
      else if u < 1000000 then
        let r := fmtFrac "µs" u 3
        fmtInt r.1 r.2
      else
        let r := fmtFrac "ms" u 6
        fmtInt r.1 r.2
    else
      let r := fmtFrac "s" u 9
      let b := fmtInt r.1 (r.2 % 60)
      let v := r.2 / 60
      if v > 0 then
        let b := fmtInt ("m" ++ b) (v % 60)
        let v := v / 60
        if v > 0 then fmtInt ("h" ++ b) v else b
      else b
  if d < 0 then "-" ++ body else body

/-- A result before the conclusion, with the given attempts and no flag set. -/
def freshResult (times : Attempts) : Result :=
  { Title := "zk", Timestamp := 0, Times := times, ThresholdRTT := 0, Healthy := false, Degraded := false, Down := false, Notice := "" }

/-- A checker configuration with the given threshold, in plain mode. -/
def checkerWith (threshold : Duration) : ZkChecker :=
  { Name := "zk", Servers := ["localhost:2181"], Timeout := 0, Detailed := false, ThresholdRTT := threshold, Attempts := 3 }

/-- Three successful attempts with round trip times 50ms, 200ms and 60ms. -/
def sampleTimes : Attempts :=
  [{ RTT := 50 * Millisecond, Error := "" }, { RTT := 200 * Millisecond, Error := "" }, { RTT := 60 * Millisecond, Error := "" }]

/-- An environment for concrete runs: every node answers well, in detailed
mode as one leader and two followers, every attempt takes 60ms, and slices of
up to a million attempts can be made. -/
def sampleEnv : Env :=
  { FLWSrvr := fun _ _ _ => ([ModeLeader, ModeFollower, ModeFollower], true)
    FLWRuok := fun _ _ _ => [true, true, true]
    since := fun _ => 60 * Millisecond
    Timestamp := 0
    ComputeStats := ComputeStats
    fmtDuration := durationString
    makeLimit := 1000000
    makeLimit_le := by decide }

/-- A checker configuration in detailed mode. -/
def detailedChecker : ZkChecker :=
  { Name := "zk", Servers := ["a:2181", "b:2181", "c:2181"], Timeout := 0, Detailed := true, ThresholdRTT := 0, Attempts := 1 }

/-- Modelled from the spec: transport errors are represented as the Unknown
role. The query `zk.FLWSrvr` of the client library returns its success flag as
`false` only when some node could not be queried or understood, and the entry
of such a node carries the role Unknown: a `false` flag comes with an Unknown
entry. -/
def srvrAnswerValid (results : List Mode) (ok : Bool) : Prop :=
  ok = false → ModeUnknown ∈ results

/-- The contract of the answer can be checked. -/
instance srvrAnswerValidDecidable (results : List Mode) (ok : Bool) : Decidable (srvrAnswerValid results ok) := by
  unfold srvrAnswerValid
  infer_instance

/-- An environment one of whose three nodes cannot be reached: its entry is
Unknown and the success flag of the query is `false`. -/
def unreachableNodeEnv : Env :=
  { sampleEnv with FLWSrvr := fun _ _ _ => ([ModeLeader, ModeUnknown, ModeFollower], false) }

/-! ## The notifier (`sns.go`) -/

/-- The `SNS` notifier record. -/
structure SNS where
  TopicArn : String
  Region : String
  AccessKeyID : String
  SecretAccessKey : String
  deriving DecidableEq

/-- The fields of `sns.PublishInput` that `sendNotification` fills. -/
structure PublishInput where
  TopicArn : String
  Subject : String
  Message : String
  deriving DecidableEq

/-- The part of `aws.Config` that `Notify` fills: the region and, when both
keys are given, static credentials (key id, secret, empty token). -/
structure AwsConfig where
  Region : String
  Credentials : Option (String × String × String)
  deriving DecidableEq

/-- The interface `snsSvc`: `svc k params` is the error returned by the call of
`Publish(params)` made after `k` earlier calls, `none` for `nil`. The output of
`Publish` is dropped by the caller. -/
abbrev snsSvc := Nat → PublishInput → Option String

/-- The collaborators of the notifier: the constructor `newSns` of the service
client, and the methods `Status` and `String` of `Result`, which belong to the
shared result code. -/
structure SnsEnv where
  newSns : AwsConfig → snsSvc
  Status : Result → String
  ResultString : Result → String

/-- The function `sendNotification`. `calls` is the list of the calls of
`Publish` made so far; the call is added to it and its error returned. -/
def sendNotification (env : SnsEnv) (s : SNS) (svc : snsSvc) (calls : List PublishInput) (r : Result) : List PublishInput × Option String :=
  let params : PublishInput :=
    { TopicArn := s.TopicArn
      Subject := "[Checkup] " ++ r.Title ++ " " ++ env.Status r
      Message := env.ResultString r }
  let err := svc calls.length params
  (calls ++ [params], err)

/-- The loop `for _, res := range r` of `Notify`: the calls of `Publish` made
and the error returned. -/
def notifyLoop (env : SnsEnv) (s : SNS) (svc : snsSvc) : List Result → List PublishInput → List PublishInput × Option String
  | [], calls => (calls, none)
  | res :: rest, calls =>
    if !res.Healthy then
      match sendNotification env s svc calls res with
      | (calls, some err) => (calls, some err)
      | (calls, none) => notifyLoop env s svc rest calls
    else
      notifyLoop env s svc rest calls

/-- The configuration `Notify` builds for the service client. -/
def awsConfig (s : SNS) : AwsConfig :=
  let config : AwsConfig := { Region := s.Region, Credentials := none }
  if s.AccessKeyID != "" && s.SecretAccessKey != "" then
    { config with Credentials := some (s.AccessKeyID, s.SecretAccessKey, "") }
  else
    config

/-- The function `Notify`: the calls of `Publish` it makes, in order, and the
error it returns. -/
def Notify (env : SnsEnv) (s : SNS) (r : List Result) : List PublishInput × Option String :=
  let config := awsConfig s
  let svc := env.newSns config
  notifyLoop env s svc r []

/-- The alert `sendNotification` publishes for a result. -/
def alertOf (env : SnsEnv) (s : SNS) (r : Result) : PublishInput :=
  { TopicArn := s.TopicArn
    Subject := "[Checkup] " ++ r.Title ++ " " ++ env.Status r
    Message := env.ResultString r }

/-- The alerts of the results that are not healthy, in list order. -/
def alerts (env : SnsEnv) (s : SNS) (rs : List Result) : List PublishInput :=
  (rs.filter (fun res => !res.Healthy)).map (alertOf env s)

/-- The attempts `Check` hands to `conclude`. -/
def checkTimes (env : Env) (c : ZkChecker) : Attempts :=
  (List.range (clampAttempts c).Attempts.toNat).map (doCheck env (clampAttempts c) (effectiveTimeout c) none)

/-- A checker configuration without endpoints, in plain or detailed mode. -/
def noServers (detailed : Bool) : ZkChecker :=
  { Name := "zk", Servers := [], Timeout := 0, Detailed := detailed, ThresholdRTT := 0, Attempts := 2 }

/-- An environment whose transport answers with no node response. -/
def emptyAnswerEnv : Env :=
  { sampleEnv with FLWSrvr := fun _ _ _ => ([], true), FLWRuok := fun _ _ _ => [] }

/-- Modelled from the spec: the classification label of a result, the method
`Status` of the shared result code (not in the source files). -/
def statusLabel (r : Result) : String :=
  if r.Down then "down" else if r.Degraded then "degraded" else if r.Healthy then "healthy" else "unknown"

/-- A notifier environment whose service fails the second call of `Publish`
and accepts every other call. -/
def secondCallFails : SnsEnv :=
  { newSns := fun _ k _ => if k = 1 then some "delivery failed" else none
    Status := statusLabel
    ResultString := fun r => r.Title }

/-- A notifier environment whose service accepts every call. -/
def allDelivered : SnsEnv :=
  { newSns := fun _ _ _ => none
    Status := statusLabel
    ResultString := fun r => r.Title }

/-- A notifier record without static credentials. -/
def sampleSNS : SNS :=
  { TopicArn := "arn:aws:sns:eu-west-1:0:checkup", Region := "eu-west-1", AccessKeyID := "", SecretAccessKey := "" }

/-- A finalized result with the given title, healthy or down. -/
def finalResult (title : String) (healthy : Bool) : Result :=
  { Title := title, Timestamp := 0, Times := [], ThresholdRTT := 0, Healthy := healthy, Degraded := false, Down := !healthy, Notice := "" }

/-! ## Properties of the conclusion -/

/-- The first branch of `conclude` is taken exactly when some attempt has a
non-empty error. -/
theorem any_error_iff (times : Attempts) :
    times.any (fun a => a.Error != "") = true ↔ ∃ a ∈ times, a.Error ≠ "" := by
  simp [List.any_eq_true]

/-- When no attempt has an error the first branch of `conclude` is not taken. -/
theorem any_error_false (times : Attempts) (h : ∀ a ∈ times, a.Error = "") :
    times.any (fun a => a.Error != "") = false := by
  cases hany : times.any (fun a => a.Error != "") with
  | false => rfl
  | true =>
    obtain ⟨a, ha, hne⟩ := (any_error_iff times).mp hany
    exact absurd (h a ha) hne

/-- The notice of a degraded result is never empty. -/
theorem thresholdNotice_ne_empty (fd : Duration → String) (t : Duration) :
    thresholdNotice fd t ≠ "" := by
  intro h
  have hlen := congrArg String.length h
  simp [thresholdNotice, String.length_append] at hlen
  exact absurd hlen.1.1 (by decide)

/-- C1: when some attempt of the result carries a non-empty error, `conclude`
sets `Down`, whatever the configuration, the threshold and the other attempts
are; `Healthy`, `Degraded` and `Notice` are the ones of the input, and the
result is the input with the threshold recorded and `Down` set. -/
theorem conclude_down_of_error (cs : Result → Stats) (fd : Duration → String) (c : ZkChecker) (r : Result)
    (h : ∃ a ∈ r.Times, a.Error ≠ "") :
    (conclude cs fd c r).Down = true ∧
    (conclude cs fd c r).Healthy = r.Healthy ∧
    (conclude cs fd c r).Degraded = r.Degraded ∧
    (conclude cs fd c r).Notice = r.Notice ∧
    conclude cs fd c r = { r with ThresholdRTT := c.ThresholdRTT, Down := true } := by
  have hany : r.Times.any (fun a => a.Error != "") = true := (any_error_iff r.Times).mpr h
  simp [conclude, hany]

/-- Witness of C1: threshold 0, one failed attempt among two successful and
fast ones. -/
theorem conclude_down_of_error_witness :
    (conclude ComputeStats durationString (checkerWith 0) (freshResult [{ RTT := 1, Error := "" }, { RTT := 2, Error := "one or more nodes reported errors" }, { RTT := 3, Error := "" }])).Down = true :=
  (conclude_down_of_error ComputeStats durationString (checkerWith 0) _
    ⟨{ RTT := 2, Error := "one or more nodes reported errors" }, by decide, by decide⟩).1

/-- C2: for a result with no flag set and no attempt error, and a threshold
above zero that the median round trip time exceeds, `conclude` sets `Degraded`
only, and the notice is the fixed text with the rendered threshold between
brackets, which is not empty. -/
theorem conclude_degraded (cs : Result → Stats) (fd : Duration → String) (c : ZkChecker) (r : Result)
    (hH : r.Healthy = false) (_hG : r.Degraded = false) (hD : r.Down = false)
    (herr : ∀ a ∈ r.Times, a.Error = "")
    (hthr : 0 < c.ThresholdRTT)
    (hmed : c.ThresholdRTT < (cs { r with ThresholdRTT := c.ThresholdRTT }).Median) :
    (conclude cs fd c r).Degraded = true ∧
    (conclude cs fd c r).Healthy = false ∧
    (conclude cs fd c r).Down = false ∧
    (conclude cs fd c r).Notice = "median round trip time exceeded threshold (" ++ fd c.ThresholdRTT ++ ")" ∧
    (conclude cs fd c r).Notice ≠ "" := by
  have hany := any_error_false r.Times herr
  have hn := thresholdNotice_ne_empty fd c.ThresholdRTT
  have hc : conclude cs fd c r =
      { r with ThresholdRTT := c.ThresholdRTT, Notice := thresholdNotice fd c.ThresholdRTT, Degraded := true } := by
    unfold conclude
    simp only [hany]
    rw [if_neg (by simp), if_pos hthr, if_pos hmed]
  rw [hc]
  exact ⟨rfl, hH, hD, rfl, hn⟩

/-- Witness of C2: threshold 50ms and round trip times 50ms, 200ms, 60ms, whose
median is 60ms. -/
theorem conclude_degraded_witness :
    medianRTT sampleTimes = 60 * Millisecond ∧
    (conclude ComputeStats durationString (checkerWith (50 * Millisecond)) (freshResult sampleTimes)).Degraded = true ∧
    (conclude ComputeStats durationString (checkerWith (50 * Millisecond)) (freshResult sampleTimes)).Notice = "median round trip time exceeded threshold (50ms)" :=
  ⟨by decide,
   (conclude_degraded ComputeStats durationString (checkerWith (50 * Millisecond)) (freshResult sampleTimes)
      rfl rfl rfl (by decide) (by decide) (by decide)).1,
   (conclude_degraded ComputeStats durationString (checkerWith (50 * Millisecond)) (freshResult sampleTimes)
      rfl rfl rfl (by decide) (by decide) (by decide)).2.2.2.1.trans (by decide)⟩

/-- C3: for a result with no flag set and no attempt error, and a threshold
above zero that the median round trip time does not exceed (equality
included), `conclude` sets `Healthy` only and leaves the notice as it was. -/
theorem conclude_healthy_within_threshold (cs : Result → Stats) (fd : Duration → String) (c : ZkChecker) (r : Result)
    (_hH : r.Healthy = false) (hG : r.Degraded = false) (hD : r.Down = false)
    (herr : ∀ a ∈ r.Times, a.Error = "")
    (hthr : 0 < c.ThresholdRTT)
    (hmed : (cs { r with ThresholdRTT := c.ThresholdRTT }).Median ≤ c.ThresholdRTT) :
    (conclude cs fd c r).Healthy = true ∧
    (conclude cs fd c r).Degraded = false ∧
    (conclude cs fd c r).Down = false ∧
    (conclude cs fd c r).Notice = r.Notice := by
  have hany := any_error_false r.Times herr
  have hnot : ¬ c.ThresholdRTT < (cs { r with ThresholdRTT := c.ThresholdRTT }).Median := not_lt.mpr hmed
  have hc : conclude cs fd c r = { r with ThresholdRTT := c.ThresholdRTT, Healthy := true } := by
    unfold conclude
    simp only [hany]
    rw [if_neg (by simp), if_pos hthr, if_neg hnot]
  rw [hc]
  exact ⟨rfl, hG, hD, rfl⟩

/-- Witness of C3: threshold 100ms and round trip times 50ms, 200ms, 60ms. -/
theorem conclude_healthy_within_threshold_witness :
    (conclude ComputeStats durationString (checkerWith (100 * Millisecond)) (freshResult sampleTimes)).Healthy = true ∧
    (conclude ComputeStats durationString (checkerWith (60 * Millisecond)) (freshResult sampleTimes)).Healthy = true ∧
    (conclude ComputeStats durationString (checkerWith (100 * Millisecond)) (freshResult sampleTimes)).Notice = "" :=
  ⟨(conclude_healthy_within_threshold ComputeStats durationString (checkerWith (100 * Millisecond)) (freshResult sampleTimes)
      rfl rfl rfl (by decide) (by decide) (by decide)).1,
   (conclude_healthy_within_threshold ComputeStats durationString (checkerWith (60 * Millisecond)) (freshResult sampleTimes)
      rfl rfl rfl (by decide) (by decide) (by decide)).1,
   (conclude_healthy_within_threshold ComputeStats durationString (checkerWith (100 * Millisecond)) (freshResult sampleTimes)
      rfl rfl rfl (by decide) (by decide) (by decide)).2.2.2⟩

/-- C4: with threshold 0, a result with no flag set and no attempt error is
concluded `Healthy` only, whatever the round trip times are; the statistics
function is not consulted, the result is the same for every such function. -/
theorem conclude_healthy_threshold_zero (cs : Result → Stats) (fd : Duration → String) (c : ZkChecker) (r : Result)
    (hzero : c.ThresholdRTT = 0)
    (_hH : r.Healthy = false) (hG : r.Degraded = false) (hD : r.Down = false)
    (herr : ∀ a ∈ r.Times, a.Error = "") :
    (conclude cs fd c r).Healthy = true ∧
    (conclude cs fd c r).Degraded = false ∧
    (conclude cs fd c r).Down = false ∧
    (∀ (cs' : Result → Stats) (fd' : Duration → String), conclude cs' fd' c r = conclude cs fd c r) := by
  have hany := any_error_false r.Times herr
  simp [conclude, hany, hzero, hG, hD]

/-- Witness of C4: threshold 0 and a round trip time of one hour. -/
theorem conclude_healthy_threshold_zero_witness :
    (conclude ComputeStats durationString (checkerWith 0) (freshResult [{ RTT := 3600 * Second, Error := "" }])).Healthy = true :=
  (conclude_healthy_threshold_zero ComputeStats durationString (checkerWith 0) (freshResult [{ RTT := 3600 * Second, Error := "" }])
    rfl rfl rfl rfl (by decide)).1

/-- A result with no flag set is concluded with exactly one flag set. -/
theorem conclude_exactlyOne (cs : Result → Stats) (fd : Duration → String) (c : ZkChecker) (r : Result)
    (hH : r.Healthy = false) (hG : r.Degraded = false) (hD : r.Down = false) :
    exactlyOneStatus (conclude cs fd c r) := by
  unfold exactlyOneStatus conclude
  simp only
  split_ifs <;> simp [hH, hG, hD]

/-- The attempt count of the clamped configuration is at least 1. -/
theorem clampAttempts_pos (c : ZkChecker) : 1 ≤ (clampAttempts c).Attempts := by
  unfold clampAttempts
  split_ifs with h
  · simp
  · omega

/-- With a count that is not negative and within the allocation limit
`doChecks` returns one attempt per index below the count. -/
theorem doChecks_eq (env : Env) (c : ZkChecker) (h : 0 ≤ c.Attempts) (hl : c.Attempts ≤ (env.makeLimit : Int)) :
    doChecks env c = some ((List.range c.Attempts.toNat).map (doCheck env c (effectiveTimeout c) none)) := by
  have h0 : ¬ (c.Attempts < 0 ∨ (env.makeLimit : Int) < c.Attempts) := by omega
  simp only [doChecks, effectiveTimeout, if_neg h0]

/-- With a negative count or a count above the allocation limit `doChecks`
returns nothing. -/
theorem doChecks_none (env : Env) (c : ZkChecker) (h : c.Attempts < 0 ∨ (env.makeLimit : Int) < c.Attempts) :
    doChecks env c = none := by
  simp only [doChecks, if_pos h]

/-- When `doChecks` returns, the count is between 0 and the allocation limit
and the attempts are those of the loop. -/
theorem doChecks_some (env : Env) (c : ZkChecker) (times : Attempts) (h : doChecks env c = some times) :
    0 ≤ c.Attempts ∧ c.Attempts ≤ (env.makeLimit : Int) ∧
    times = (List.range c.Attempts.toNat).map (doCheck env c (effectiveTimeout c) none) := by
  by_cases hb : c.Attempts < 0 ∨ (env.makeLimit : Int) < c.Attempts
  · rw [doChecks_none env c hb] at h
    cases h
  · have h0 : 0 ≤ c.Attempts := by omega
    have hl : c.Attempts ≤ (env.makeLimit : Int) := by omega
    rw [doChecks_eq env c h0 hl] at h
    cases h
    exact ⟨h0, hl, rfl⟩

/-- The allocation limit of a run is below the largest value of an `int`. -/
theorem makeLimit_lt_maxInt (env : Env) : (env.makeLimit : Int) < 9223372036854775807 := by
  have h := env.makeLimit_le
  simp only [attemptSize, maxAlloc] at h
  omega

/-- The attempt count of the clamped configuration. -/
theorem clampAttempts_Attempts (c : ZkChecker) : (clampAttempts c).Attempts = max c.Attempts 1 := by
  unfold clampAttempts
  split_ifs with h
  · simp only
    omega
  · omega

/-- What `Check` does: the attempts of the clamped configuration, then the
conclusion. -/
theorem Check_unfold (env : Env) (c : ZkChecker) :
    Check env c =
      match doChecks env (clampAttempts c) with
      | none => none
      | some times => some (conclude env.ComputeStats env.fmtDuration (clampAttempts c)
          { Title := c.Name, Timestamp := env.Timestamp, Times := times, ThresholdRTT := 0,
            Healthy := false, Degraded := false, Down := false, Notice := "" }, none) := by
  have hname : (clampAttempts c).Name = c.Name := by
    unfold clampAttempts; split_ifs <;> rfl
  rw [← hname]
  rfl

/-- The timeout of the clamped configuration. -/
theorem effectiveTimeout_clamp (c : ZkChecker) : effectiveTimeout (clampAttempts c) = effectiveTimeout c := by
  unfold clampAttempts effectiveTimeout; split_ifs <;> rfl

/-- When the clamped count is within the allocation limit `Check` returns the
conclusion of the result that holds the attempts of the clamped configuration
and has no flag set, together with a `nil` error. -/
theorem Check_eq (env : Env) (c : ZkChecker) (hl : max c.Attempts 1 ≤ (env.makeLimit : Int)) :
    Check env c = some (conclude env.ComputeStats env.fmtDuration (clampAttempts c)
        { Title := c.Name, Timestamp := env.Timestamp, Times := checkTimes env c,
          ThresholdRTT := 0, Healthy := false, Degraded := false, Down := false, Notice := "" }, none) := by
  have hA := clampAttempts_Attempts c
  have hd := doChecks_eq env (clampAttempts c) (by omega) (by omega)
  rw [effectiveTimeout_clamp] at hd
  rw [Check_unfold, hd]
  rfl

/-- When the clamped count is above the allocation limit `Check` returns
nothing: the run panics in `make`. -/
theorem Check_none (env : Env) (c : ZkChecker) (hl : (env.makeLimit : Int) < max c.Attempts 1) :
    Check env c = none := by
  have hA := clampAttempts_Attempts c
  rw [Check_unfold, doChecks_none env (clampAttempts c) (Or.inr (by omega))]

/-- When `Check` returns, the clamped count is within the allocation limit,
the result is the conclusion over the attempts of the clamped configuration
and the error is `nil`. -/
theorem Check_some (env : Env) (c : ZkChecker) (r : Result) (e : Option String)
    (h : Check env c = some (r, e)) :
    max c.Attempts 1 ≤ (env.makeLimit : Int) ∧
    r = conclude env.ComputeStats env.fmtDuration (clampAttempts c)
        { Title := c.Name, Timestamp := env.Timestamp, Times := checkTimes env c,
          ThresholdRTT := 0, Healthy := false, Degraded := false, Down := false, Notice := "" } ∧
    e = none := by
  by_cases hl : max c.Attempts 1 ≤ (env.makeLimit : Int)
  · rw [Check_eq env c hl] at h
    cases h
    exact ⟨hl, rfl, rfl⟩
  · rw [Check_none env c (by omega)] at h
    cases h

/-- With the largest count an `int` holds, `Check` returns nothing in every
run: the slice cannot be made. -/
theorem Check_none_of_maxInt (env : Env) (c : ZkChecker) (h : c.Attempts = 9223372036854775807) :
    Check env c = none := by
  have hlim := makeLimit_lt_maxInt env
  exact Check_none env c (by omega)

/-- C5: for every configuration and every environment (transport answers,
clock, statistics), every result returned by `Check` has exactly one of
`Healthy`, `Degraded`, `Down` set, and `Check` returns such a result whenever
the clamped attempt count is within the allocation limit of the run; and
`conclude` applied to any result whose three flags are unset yields a result
with exactly one of them set. -/
theorem check_exactly_one_status :
    (∀ (env : Env) (c : ZkChecker) (r : Result) (e : Option String),
      Check env c = some (r, e) → exactlyOneStatus r) ∧
    (∀ (env : Env) (c : ZkChecker), max c.Attempts 1 ≤ (env.makeLimit : Int) →
      ∃ r : Result, Check env c = some (r, none) ∧ exactlyOneStatus r) ∧
    (∀ (cs : Result → Stats) (fd : Duration → String) (c : ZkChecker) (r : Result),
      r.Healthy = false → r.Degraded = false → r.Down = false → exactlyOneStatus (conclude cs fd c r)) := by
  refine ⟨?_, ?_, conclude_exactlyOne⟩
  · intro env c r e h
    obtain ⟨_, rfl, _⟩ := Check_some env c r e h
    exact conclude_exactlyOne _ _ _ _ rfl rfl rfl
  · intro env c hl
    exact ⟨_, Check_eq env c hl, conclude_exactlyOne _ _ _ _ rfl rfl rfl⟩

/-- Witness of C5: a plain run with threshold 50ms returns a result with
exactly one flag set, and the conclusion of the sample attempts with threshold
100ms has exactly one flag set. -/
theorem check_exactly_one_status_witness :
    (∃ r : Result, Check sampleEnv (checkerWith (50 * Millisecond)) = some (r, none) ∧ exactlyOneStatus r) ∧
    exactlyOneStatus (conclude ComputeStats durationString (checkerWith (100 * Millisecond)) (freshResult sampleTimes)) :=
  ⟨check_exactly_one_status.2.1 sampleEnv (checkerWith (50 * Millisecond)) (by decide),
   check_exactly_one_status.2.2 ComputeStats durationString (checkerWith (100 * Millisecond)) (freshResult sampleTimes) rfl rfl rfl⟩

/-! ## Properties of the quorum verdict, detailed mode -/

/-- The state after the role-counting loop, in closed form: the counters count
the leaders and the followers, `ok` has survived when no node is unknown and
any standalone node is alone, and the marker records a standalone node. -/
theorem foldl_roleStep (n : Nat) (l : List Mode) (s : RoleState) :
    l.foldl (roleStep n) s =
      { followers := s.followers + l.count ModeFollower
        leaders := s.leaders + l.count ModeLeader
        ok := s.ok && !decide (ModeUnknown ∈ l) && (!decide (ModeStandalone ∈ l) || decide (n = 1))
        standalone := s.standalone || decide (ModeStandalone ∈ l) } := by
  induction l generalizing s with
  | nil => cases s; simp
  | cons m t ih =>
    rw [List.foldl_cons, ih]
    cases m <;> cases hs : s.ok <;> cases hn : decide (n = 1) <;>
      simp [roleStep, hs, hn] <;> omega

/-- The state after the loop started by `doChecks`. -/
theorem roleLoop_eq (results : List Mode) (ok : Bool) :
    roleLoop results ok =
      { followers := results.count ModeFollower
        leaders := results.count ModeLeader
        ok := ok && !decide (ModeUnknown ∈ results) &&
          (!decide (ModeStandalone ∈ results) || decide (results.length = 1))
        standalone := decide (ModeStandalone ∈ results) } := by
  simp [roleLoop, foldl_roleStep]

/-- The detailed verdict when no node is standalone. -/
theorem detailedOk_of_not_standalone (results : List Mode) (ok : Bool) (h : ModeStandalone ∉ results) :
    detailedOk results ok =
      (ok && !decide (ModeUnknown ∈ results) && decide (results.count ModeLeader = 1) &&
        decide (results.count ModeLeader + results.count ModeFollower = results.length)) := by
  simp [detailedOk, roleLoop_eq, h]

/-- The detailed verdict when some node is standalone. -/
theorem detailedOk_of_standalone (results : List Mode) (ok : Bool) (h : ModeStandalone ∈ results) :
    detailedOk results ok =
      (ok && !decide (ModeUnknown ∈ results) && decide (results.length = 1)) := by
  simp [detailedOk, roleLoop_eq, h]

/-- Once `ok` is false no later iteration of the loop sets it again. -/
theorem foldl_roleStep_ok_false (n : Nat) (l : List Mode) (s : RoleState) (h : s.ok = false) :
    (l.foldl (roleStep n) s).ok = false := by
  rw [foldl_roleStep]
  simp [h]

/-- Leaders and followers account for every node exactly when every node is a
leader or a follower. -/
theorem count_leader_follower (l : List Mode) :
    l.count ModeLeader + l.count ModeFollower = l.length ↔ ∀ m ∈ l, m = ModeLeader ∨ m = ModeFollower := by
  have hle : ∀ t : List Mode, t.count ModeLeader + t.count ModeFollower ≤ t.length := by
    intro t
    induction t with
    | nil => simp
    | cons m t ih => cases m <;> simp [List.count_cons] <;> omega
  induction l with
  | nil => simp
  | cons m t ih =>
    have := hle t
    cases m <;> simp [List.count_cons, ← ih] <;> omega

/-- A list with exactly one leader whose other elements are followers splits
around its leader into two lists of followers. -/
theorem split_at_leader (l : List Mode) (h1 : l.count ModeLeader = 1)
    (hall : ∀ m ∈ l, m = ModeLeader ∨ m = ModeFollower) :
    ∃ pre post : List Mode, l = pre ++ ModeLeader :: post ∧ ∀ m ∈ pre ++ post, m = ModeFollower := by
  have hmem : ModeLeader ∈ l := List.count_pos_iff.mp (by omega)
  obtain ⟨pre, post, rfl⟩ := List.append_of_mem hmem
  refine ⟨pre, post, rfl, ?_⟩
  intro m hm
  have hc : pre.count ModeLeader = 0 ∧ post.count ModeLeader = 0 := by
    simp [List.count_append, List.count_cons] at h1
    omega
  have hm' : m ∈ pre ++ ModeLeader :: post := by
    rcases List.mem_append.mp hm with h | h
    · exact List.mem_append_left _ h
    · exact List.mem_append_right _ (List.mem_cons_of_mem _ h)
  rcases hall m hm' with h | h
  · subst h
    rcases List.mem_append.mp hm with h | h
    · exact absurd (List.count_pos_iff.mpr h) (by omega)
    · exact absurd (List.count_pos_iff.mpr h) (by omega)
  · exact h

/-- C6: in detailed mode, for a list of node responses without a standalone
node and any verdict of the transport, if the attempt is judged ok then exactly
one node is a leader, leaders and followers account for every node, no node is
unknown, and the list is one leader between followers; and a list whose number
of leaders is not one (none, or two and more) is judged not ok. -/
theorem detailed_ok_one_leader (results : List Mode) (ok : Bool) (hns : ModeStandalone ∉ results) :
    (detailedOk results ok = true →
      results.count ModeLeader = 1 ∧
      results.count ModeLeader + results.count ModeFollower = results.length ∧
      ModeUnknown ∉ results ∧
      ∃ pre post : List Mode, results = pre ++ ModeLeader :: post ∧ ∀ m ∈ pre ++ post, m = ModeFollower) ∧
    (results.count ModeLeader ≠ 1 → detailedOk results ok = false) := by
  rw [detailedOk_of_not_standalone results ok hns]
  constructor
  · intro h
    simp only [Bool.and_eq_true, decide_eq_true_eq, Bool.not_eq_true', decide_eq_false_iff_not] at h
    obtain ⟨⟨⟨_, hu⟩, h1⟩, hsum⟩ := h
    exact ⟨h1, hsum, hu, split_at_leader results h1 ((count_leader_follower results).mp hsum)⟩
  · intro h
    simp [h]

/-- Witness of C6: two leaders and a follower are judged not ok, and so is a
list without a leader; a leader between two followers is judged ok. -/
theorem detailed_ok_one_leader_witness :
    detailedOk [ModeLeader, ModeLeader, ModeFollower] true = false ∧
    detailedOk [ModeFollower, ModeFollower] true = false ∧
    [ModeFollower, ModeLeader, ModeFollower].count ModeLeader = 1 :=
  ⟨(detailed_ok_one_leader [ModeLeader, ModeLeader, ModeFollower] true (by decide)).2 (by decide),
   (detailed_ok_one_leader [ModeFollower, ModeFollower] true (by decide)).2 (by decide),
   ((detailed_ok_one_leader [ModeFollower, ModeLeader, ModeFollower] true (by decide)).1 (by decide)).1⟩

/-- The verdict of an attempt in detailed mode is the detailed verdict of the
answer of `zk.FLWSrvr`. -/
theorem attemptOk_detailed (env : Env) (c : ZkChecker) (timeout : Duration) (i : Nat)
    (hd : c.Detailed = true) (results : List Mode) (ok : Bool)
    (hr : env.FLWSrvr i c.Servers timeout = (results, ok)) :
    attemptOk env c timeout i = detailedOk results ok := by
  simp [attemptOk, hd, hr]

/-- The verdict of an attempt in plain mode is the plain verdict of the answer
of `zk.FLWRuok`. -/
theorem attemptOk_plain (env : Env) (c : ZkChecker) (timeout : Duration) (i : Nat)
    (hd : c.Detailed = false) :
    attemptOk env c timeout i = plainOk (env.FLWRuok i c.Servers timeout) := by
  simp [attemptOk, hd]

/-- The error of an attempt is empty when its verdict is ok and the fixed text
otherwise. -/
theorem doCheck_error (env : Env) (c : ZkChecker) (timeout : Duration) (i : Nat) :
    (doCheck env c timeout none i).Error =
      if attemptOk env c timeout i = true then "" else nodesReportedErrors := by
  unfold doCheck
  cases attemptOk env c timeout i <;> simp

/-- For one leader and any number of followers the detailed verdict is the
success flag the transport returned. -/
theorem detailedOk_leader_followers_flag (results : List Mode) (ok : Bool)
    (h1 : results.count ModeLeader = 1)
    (hall : ∀ m ∈ results, m = ModeLeader ∨ m = ModeFollower) :
    detailedOk results ok = ok := by
  have hns : ModeStandalone ∉ results := fun h => by
    rcases hall _ h with h | h <;> cases h
  have hnu : ModeUnknown ∉ results := fun h => by
    rcases hall _ h with h | h <;> cases h
  have hsum := (count_leader_follower results).mpr hall
  rw [detailedOk_of_not_standalone results ok hns, decide_eq_true hsum, decide_eq_true h1,
    decide_eq_false hnu]
  simp

/-- For an answer that keeps the contract of the transport, the detailed verdict
is the one computed from the roles with the starting verdict `true`. -/
theorem detailedOk_of_valid (results : List Mode) (ok : Bool) (hvalid : srvrAnswerValid results ok) :
    detailedOk results ok = detailedOk results true := by
  cases ok with
  | true => rfl
  | false =>
    have hu : ModeUnknown ∈ results := hvalid rfl
    by_cases hs : ModeStandalone ∈ results
    · rw [detailedOk_of_standalone results false hs, detailedOk_of_standalone results true hs]
      simp [hu]
    · rw [detailedOk_of_not_standalone results false hs, detailedOk_of_not_standalone results true hs]
      simp [hu]

/-- C7: in detailed mode, for an answer of the transport that keeps its
contract (a `false` success flag comes with an Unknown entry) and consists of
exactly one leader and any number of followers, the verdict starts from `true`,
the attempt is judged ok and its error is left empty. For every answer that
keeps the contract the verdict is the one computed from the per-node roles
alone, with the starting verdict `true`. -/
theorem detailed_leader_followers (results : List Mode) (ok : Bool)
    (hvalid : srvrAnswerValid results ok)
    (h1 : results.count ModeLeader = 1)
    (hall : ∀ m ∈ results, m = ModeLeader ∨ m = ModeFollower) :
    ok = true ∧
    detailedOk results ok = true ∧
    (∀ (rs : List Mode) (flag : Bool), srvrAnswerValid rs flag → detailedOk rs flag = detailedOk rs true) ∧
    ∀ (env : Env) (c : ZkChecker) (timeout : Duration) (i : Nat),
      c.Detailed = true → env.FLWSrvr i c.Servers timeout = (results, ok) →
      attemptOk env c timeout i = true ∧
      (doCheck env c timeout none i).Error = "" := by
  have hnu : ModeUnknown ∉ results := fun h => by
    rcases hall _ h with h | h <;> cases h
  have hok : ok = true := by
    cases hk : ok with
    | true => rfl
    | false => exact absurd (hvalid hk) hnu
  have hv : detailedOk results ok = true := by
    rw [detailedOk_leader_followers_flag results ok h1 hall, hok]
  refine ⟨hok, hv, detailedOk_of_valid, ?_⟩
  intro env c timeout i hd hr
  have ha := attemptOk_detailed env c timeout i hd results ok hr
  rw [hv] at ha
  rw [doCheck_error, ha]
  exact ⟨rfl, rfl⟩

/-- Witness of C7: one leader and two followers delivered by the transport are
judged ok and the error of the attempt is empty. -/
theorem detailed_leader_followers_witness :
    detailedOk [ModeLeader, ModeFollower, ModeFollower] true = true ∧
    (doCheck sampleEnv detailedChecker Second none 0).Error = "" :=
  ⟨(detailed_leader_followers [ModeLeader, ModeFollower, ModeFollower] true (by decide) (by decide) (by decide)).2.1,
   ((detailed_leader_followers [ModeLeader, ModeFollower, ModeFollower] true (by decide) (by decide) (by decide)).2.2.2
      sampleEnv detailedChecker Second 0 rfl rfl).2⟩

/-- C8: in detailed mode a list of node responses with an unknown node is
judged not ok, wherever that node stands, whatever the other roles and the
starting verdict are. The loop goes on counting, its counters are those of the
whole list, and from a state whose `ok` is false no sequence of further roles
leads to a state whose `ok` is true. -/
theorem detailed_unknown_not_ok (results : List Mode) (ok : Bool) (h : ModeUnknown ∈ results) :
    detailedOk results ok = false ∧
    (roleLoop results ok).ok = false ∧
    (roleLoop results ok).leaders = results.count ModeLeader ∧
    (roleLoop results ok).followers = results.count ModeFollower ∧
    (∀ (n : Nat) (s : RoleState) (rest : List Mode), (rest.foldl (roleStep n) (roleStep n s ModeUnknown)).ok = false) := by
  refine ⟨?_, ?_, ?_, ?_, ?_⟩
  · by_cases hs : ModeStandalone ∈ results
    · rw [detailedOk_of_standalone results ok hs]
      simp [h]
    · rw [detailedOk_of_not_standalone results ok hs]
      simp [h]
  · rw [roleLoop_eq]
    simp [h]
  · rw [roleLoop_eq]
  · rw [roleLoop_eq]
  · intro n s rest
    exact foldl_roleStep_ok_false n rest _ rfl

/-- Witness of C8: an unknown node among one leader and two followers, and an
unknown node next to a standalone one. -/
theorem detailed_unknown_not_ok_witness :
    detailedOk [ModeLeader, ModeUnknown, ModeFollower, ModeFollower] true = false ∧
    detailedOk [ModeUnknown, ModeStandalone] true = false :=
  ⟨(detailed_unknown_not_ok [ModeLeader, ModeUnknown, ModeFollower, ModeFollower] true (by decide)).1,
   (detailed_unknown_not_ok [ModeUnknown, ModeStandalone] true (by decide)).1⟩

/-- C9: in detailed mode, for an answer of the transport that keeps its
contract (a `false` success flag comes with an Unknown entry) and has a
standalone node, the attempt is judged ok if and only if the number of node
responses is exactly 1. The leader and follower check is skipped: a single
standalone node is ok with zero leaders, and a list of two or more nodes with
a standalone one is not ok. -/
theorem detailed_standalone_ok_iff (results : List Mode) (ok : Bool) (h : ModeStandalone ∈ results)
    (hvalid : srvrAnswerValid results ok) :
    (detailedOk results ok = true ↔ results.length = 1) ∧
    (detailedOk results ok = true → results = [ModeStandalone] ∧ results.count ModeLeader = 0) ∧
    (results.length = 1 → results = [ModeStandalone] ∧ ok = true ∧ detailedOk results ok = true) ∧
    (2 ≤ results.length → detailedOk results ok = false) := by
  have hone : results.length = 1 → results = [ModeStandalone] := by
    intro hl
    match results, hl, h with
    | [m], _, hm =>
      have hm' : ModeStandalone = m := by simpa using hm
      rw [hm']
  have hflag : results.length = 1 → ok = true := by
    intro hl
    have hr := hone hl
    cases hk : ok with
    | true => rfl
    | false =>
      have hu := hvalid hk
      rw [hr] at hu
      simp at hu
  have hiff : detailedOk results ok = true ↔ results.length = 1 := by
    rw [detailedOk_of_standalone results ok h]
    constructor
    · intro hv
      simp only [Bool.and_eq_true, decide_eq_true_eq] at hv
      exact hv.2
    · intro hl
      have hok := hflag hl
      have hr := hone hl
      subst hr
      simp [hok]
  refine ⟨hiff, ?_, ?_, ?_⟩
  · intro hv
    have hr := hone (hiff.mp hv)
    subst hr
    exact ⟨rfl, rfl⟩
  · intro hl
    exact ⟨hone hl, hflag hl, hiff.mpr hl⟩
  · intro h2
    cases hv : detailedOk results ok with
    | false => rfl
    | true =>
      have := hiff.mp hv
      omega

/-- Witness of C9: a single standalone node is ok, a standalone node next to a
follower is not, and neither is a standalone node next to a node that could
not be reached. -/
theorem detailed_standalone_ok_iff_witness :
    detailedOk [ModeStandalone] true = true ∧
    detailedOk [ModeStandalone, ModeFollower] true = false ∧
    detailedOk [ModeStandalone, ModeUnknown] false = false :=
  ⟨(detailed_standalone_ok_iff [ModeStandalone] true (by decide) (by decide)).1.mpr rfl,
   (detailed_standalone_ok_iff [ModeStandalone, ModeFollower] true (by decide) (by decide)).2.2.2 (by decide),
   (detailed_standalone_ok_iff [ModeStandalone, ModeUnknown] false (by decide) (by decide)).2.2.2 (by decide)⟩

/-! ## Properties of the quorum verdict, plain mode -/

/-- The plain loop started from any verdict, in closed form. -/
theorem foldl_and (l : List Bool) (b : Bool) :
    l.foldl (fun ok imok => ok && imok) b = (b && l.all id) := by
  induction l generalizing b with
  | nil => simp
  | cons x t ih =>
    rw [List.foldl_cons, ih]
    simp [Bool.and_assoc]

/-- C10: in plain mode the attempt is judged ok if and only if every node
answered `true`; the empty list of answers is judged ok, and a list with a
`false` at any position is judged not ok. The verdict of a plain attempt of
`doChecks` is this verdict of the answers of the transport. -/
theorem plain_ok_iff_all (results : List Bool) :
    (plainOk results = true ↔ ∀ b ∈ results, b = true) ∧
    plainOk [] = true ∧
    (∀ pre post : List Bool, plainOk (pre ++ false :: post) = false) ∧
    (∀ (env : Env) (c : ZkChecker) (timeout : Duration) (i : Nat),
      c.Detailed = false → env.FLWRuok i c.Servers timeout = results →
      (attemptOk env c timeout i = true ↔ ∀ b ∈ results, b = true)) := by
  have hiff : ∀ l : List Bool, plainOk l = true ↔ ∀ b ∈ l, b = true := by
    intro l
    simp [plainOk, foldl_and, List.all_eq_true]
  refine ⟨hiff results, rfl, ?_, ?_⟩
  · intro pre post
    cases hv : plainOk (pre ++ false :: post) with
    | false => rfl
    | true =>
      have := (hiff _).mp hv false (by simp)
      cases this
  · intro env c timeout i hd hr
    rw [attemptOk_plain env c timeout i hd, hr]
    exact hiff results

/-- Witness of C10: three good answers are ok, a bad answer in the middle is
not, and a run of `doChecks` in plain mode over good answers is ok. -/
theorem plain_ok_iff_all_witness :
    plainOk [true, true, true] = true ∧
    plainOk [true, false, true] = false ∧
    attemptOk sampleEnv (checkerWith 0) Second 0 = true :=
  ⟨(plain_ok_iff_all [true, true, true]).1.mpr (by decide),
   (plain_ok_iff_all [true, false, true]).2.2.1 [true] [true],
   ((plain_ok_iff_all [true, true, true]).2.2.2 sampleEnv (checkerWith 0) Second 0 rfl rfl).mpr (by decide)⟩

/-! ## Properties of `Check` and `doChecks` -/

/-- The conclusion keeps the attempts. -/
theorem conclude_Times (cs : Result → Stats) (fd : Duration → String) (c : ZkChecker) (r : Result) :
    (conclude cs fd c r).Times = r.Times := by
  unfold conclude
  simp only
  split_ifs <;> rfl

/-- The number of attempts `Check` hands to `conclude`. -/
theorem checkTimes_length (env : Env) (c : ZkChecker) :
    ((checkTimes env c).length : Int) = max c.Attempts 1 := by
  have hpos := clampAttempts_pos c
  have hcl : (clampAttempts c).Attempts = max c.Attempts 1 := by
    unfold clampAttempts
    split_ifs with h
    · simp only
      omega
    · omega
  simp only [checkTimes, List.length_map, List.length_range]
  omega

/-- The verdict of an attempt does not read the attempt count. -/
theorem attemptOk_clamp (env : Env) (c : ZkChecker) (timeout : Duration) (i : Nat) :
    attemptOk env (clampAttempts c) timeout i = attemptOk env c timeout i := by
  unfold clampAttempts
  split_ifs <;> rfl

/-- The fixed error text is not empty. -/
theorem nodesReportedErrors_ne_empty : nodesReportedErrors ≠ "" := by
  decide

/-- The attempts handed to `conclude`, one by one. -/
theorem checkTimes_getElem? (env : Env) (c : ZkChecker) (i : Nat) (a : Attempt)
    (h : (checkTimes env c)[i]? = some a) :
    (i : Int) < max c.Attempts 1 ∧ a = doCheck env (clampAttempts c) (effectiveTimeout c) none i := by
  have hlen := checkTimes_length env c
  have hi : i < (checkTimes env c).length := by
    by_contra hge
    rw [List.getElem?_eq_none (by omega)] at h
    cases h
  refine ⟨by omega, ?_⟩
  simp only [checkTimes, List.getElem?_map, Option.map_eq_some'] at h
  obtain ⟨j, hj, rfl⟩ := h
  have hr := List.getElem?_range (by simpa [checkTimes] using hi : i < (clampAttempts c).Attempts.toNat)
  rw [hr] at hj
  cases hj
  rfl

/-- An attempt handed to `conclude` has an error exactly when its verdict is
not ok. -/
theorem checkTimes_error_iff (env : Env) (c : ZkChecker) :
    (∃ a ∈ checkTimes env c, a.Error ≠ "") ↔
      ∃ i : Nat, (i : Int) < max c.Attempts 1 ∧ attemptOk env c (effectiveTimeout c) i = false := by
  have hlen := checkTimes_length env c
  constructor
  · rintro ⟨a, ha, hne⟩
    obtain ⟨i, hi⟩ := List.getElem?_of_mem ha
    obtain ⟨hlt, rfl⟩ := checkTimes_getElem? env c i a hi
    refine ⟨i, hlt, ?_⟩
    rw [doCheck_error, attemptOk_clamp] at hne
    cases hv : attemptOk env c (effectiveTimeout c) i with
    | false => rfl
    | true => simp [hv] at hne
  · rintro ⟨i, hlt, hv⟩
    have hi : i < (checkTimes env c).length := by omega
    refine ⟨(checkTimes env c)[i], List.getElem_mem hi, ?_⟩
    obtain ⟨_, ha⟩ := checkTimes_getElem? env c i _ (List.getElem?_eq_getElem hi)
    rw [ha, doCheck_error, attemptOk_clamp, hv]
    simpa using nodesReportedErrors_ne_empty

/-- A result that is not down before the conclusion is down after it exactly
when some attempt has an error. -/
theorem conclude_down_iff (cs : Result → Stats) (fd : Duration → String) (c : ZkChecker) (r : Result)
    (hD : r.Down = false) :
    (conclude cs fd c r).Down = true ↔ ∃ a ∈ r.Times, a.Error ≠ "" := by
  rw [← any_error_iff]
  unfold conclude
  simp only
  split_ifs with h1 h2 h3 <;> simp_all

/-- A result with no flag and no notice is concluded with a notice exactly when
it is concluded degraded. -/
theorem conclude_notice (cs : Result → Stats) (fd : Duration → String) (c : ZkChecker) (r : Result)
    (hH : r.Healthy = false) (hG : r.Degraded = false) (hD : r.Down = false) (hN : r.Notice = "") :
    ((conclude cs fd c r).Notice ≠ "" ↔ (conclude cs fd c r).Degraded = true) ∧
    ((conclude cs fd c r).Down = true → (conclude cs fd c r).Notice = "") ∧
    ((conclude cs fd c r).Healthy = true → (conclude cs fd c r).Notice = "") := by
  have hn := thresholdNotice_ne_empty fd c.ThresholdRTT
  unfold conclude
  simp only
  split_ifs <;> simp [hH, hG, hD, hN, hn]

/-- C11: every result returned by `Check` holds exactly `max N 1` attempts,
where `N` is the configured attempt count, and `Check` returns such a result
whenever `max N 1` is within the allocation limit of the run: `N` attempts
when `N` is at least 1 and one attempt when `N` is zero or negative. A
configuration with such a count behaves exactly like the same configuration
with count 1, and clamping twice is clamping once. -/
theorem check_attempt_count (env : Env) (c : ZkChecker) :
    (∀ (r : Result) (e : Option String), Check env c = some (r, e) →
      (r.Times.length : Int) = max c.Attempts 1) ∧
    (max c.Attempts 1 ≤ (env.makeLimit : Int) →
      ∃ r : Result, Check env c = some (r, none) ∧ (r.Times.length : Int) = max c.Attempts 1) ∧
    (1 ≤ c.Attempts → c.Attempts ≤ (env.makeLimit : Int) →
      ∃ r : Result, Check env c = some (r, none) ∧ (r.Times.length : Int) = c.Attempts) ∧
    (c.Attempts ≤ 0 →
      Check env c = Check env { c with Attempts := 1 } ∧
      (1 ≤ env.makeLimit → ∃ r : Result, Check env c = some (r, none) ∧ r.Times.length = 1)) ∧
    clampAttempts (clampAttempts c) = clampAttempts c := by
  have hlen := checkTimes_length env c
  refine ⟨?_, ?_, ?_, ?_, ?_⟩
  · intro r e h
    obtain ⟨_, rfl, _⟩ := Check_some env c r e h
    rw [conclude_Times]
    exact hlen
  · intro hl
    refine ⟨_, Check_eq env c hl, ?_⟩
    rw [conclude_Times]
    exact hlen
  · intro h hl
    refine ⟨_, Check_eq env c (by omega), ?_⟩
    rw [conclude_Times]
    simp only
    omega
  · intro h
    refine ⟨?_, ?_⟩
    · have h1 : c.Attempts < 1 := by omega
      simp [Check, h1]
    · intro hl
      refine ⟨_, Check_eq env c (by omega), ?_⟩
      rw [conclude_Times]
      simp only
      omega
  · unfold clampAttempts
    split_ifs <;> rfl

/-- Witness of C11: count 3 gives three attempts, count 0 and count -5 give one
attempt and the same result as count 1. -/
theorem check_attempt_count_witness :
    (∃ r : Result, Check sampleEnv (checkerWith 0) = some (r, none) ∧ (r.Times.length : Int) = 3) ∧
    Check sampleEnv { checkerWith 0 with Attempts := -5 } = Check sampleEnv { checkerWith 0 with Attempts := 1 } ∧
    (∃ r : Result, Check sampleEnv { checkerWith 0 with Attempts := 0 } = some (r, none) ∧ r.Times.length = 1) :=
  ⟨(check_attempt_count sampleEnv (checkerWith 0)).2.2.1 (by decide) (by decide),
   ((check_attempt_count sampleEnv { checkerWith 0 with Attempts := -5 }).2.2.2.1 (by decide)).1,
   ((check_attempt_count sampleEnv { checkerWith 0 with Attempts := 0 }).2.2.2.1 (by decide)).2 (by decide)⟩

/-- The attempts returned by `doChecks`, one by one. -/
theorem doChecks_getElem? (env : Env) (c : ZkChecker) (i : Nat) (a : Attempt)
    (h : ((List.range c.Attempts.toNat).map (doCheck env c (effectiveTimeout c) none))[i]? = some a) :
    i < c.Attempts.toNat ∧ a = doCheck env c (effectiveTimeout c) none i := by
  simp only [List.getElem?_map, Option.map_eq_some'] at h
  obtain ⟨j, hj, rfl⟩ := h
  have hi : i < c.Attempts.toNat := by
    by_contra hge
    rw [List.getElem?_eq_none (by simpa using hge)] at hj
    cases hj
  rw [List.getElem?_range hi] at hj
  cases hj
  exact ⟨hi, rfl⟩

/-- The verdict of attempt `i` reads the answers of the transport to attempt
`i` only. -/
theorem attemptOk_congr (env env' : Env) (c : ZkChecker) (timeout : Duration) (i : Nat)
    (hs : env'.FLWSrvr i = env.FLWSrvr i) (hr : env'.FLWRuok i = env.FLWRuok i) :
    attemptOk env' c timeout i = attemptOk env c timeout i := by
  simp only [attemptOk, hs, hr]

/-- C12: `doChecks` on a count that is not negative and within the allocation
limit returns one attempt per index below the count. In every list of attempts
`doChecks` returns, the error of attempt `i` is the text "one or more nodes
reported errors" when the verdict of attempt `i` is not ok and the empty string
when it is ok, no other error value occurs, and the round trip time is the one
measured by attempt `i`. The error of attempt `i` is the same in any other run
whose transport gives the same answers to attempt `i`, whatever it answers to
the other attempts. -/
theorem doChecks_error_per_attempt (env : Env) (c : ZkChecker) :
    (0 ≤ c.Attempts → c.Attempts ≤ (env.makeLimit : Int) →
      ∃ times : Attempts, doChecks env c = some times ∧ (times.length : Int) = c.Attempts) ∧
    (∀ times : Attempts, doChecks env c = some times →
      (times.length : Int) = c.Attempts ∧
      (∀ (i : Nat) (a : Attempt), times[i]? = some a →
        a.Error = (if attemptOk env c (effectiveTimeout c) i = true then ""
          else "one or more nodes reported errors") ∧
        a.RTT = env.since i) ∧
      (∀ a ∈ times, a.Error = "" ∨ a.Error = "one or more nodes reported errors") ∧
      (∀ (env' : Env) (times' : Attempts) (i : Nat) (a a' : Attempt),
        doChecks env' c = some times' →
        env'.FLWSrvr i = env.FLWSrvr i → env'.FLWRuok i = env.FLWRuok i →
        times[i]? = some a → times'[i]? = some a' → a'.Error = a.Error)) := by
  refine ⟨?_, ?_⟩
  · intro h hl
    refine ⟨_, doChecks_eq env c h hl, ?_⟩
    simp only [List.length_map, List.length_range]
    omega
  · intro times hd
    obtain ⟨h, _, rfl⟩ := doChecks_some env c times hd
    refine ⟨?_, ?_, ?_, ?_⟩
    · simp only [List.length_map, List.length_range]
      omega
    · intro i a ha
      obtain ⟨_, rfl⟩ := doChecks_getElem? env c i a ha
      refine ⟨?_, rfl⟩
      rw [doCheck_error]
      rfl
    · intro a ha
      obtain ⟨i, hi⟩ := List.getElem?_of_mem ha
      obtain ⟨_, rfl⟩ := doChecks_getElem? env c i a hi
      rw [doCheck_error]
      split_ifs
      · exact Or.inl rfl
      · exact Or.inr rfl
    · intro env' times' i a a' hd' hs hr ha ha'
      obtain ⟨_, _, rfl⟩ := doChecks_some env' c times' hd'
      obtain ⟨_, rfl⟩ := doChecks_getElem? env c i a ha
      obtain ⟨_, rfl⟩ := doChecks_getElem? env' c i a' ha'
      rw [doCheck_error, doCheck_error, attemptOk_congr env env' c _ i hs hr]

/-- Witness of C12: a plain run of three attempts over good answers, and the
attempt of a detailed run one of whose nodes cannot be reached. -/
theorem doChecks_error_per_attempt_witness :
    (∃ times : Attempts, doChecks sampleEnv (checkerWith 0) = some times ∧ (times.length : Int) = 3) ∧
    (∀ a ∈ [({ RTT := 60 * Millisecond, Error := "one or more nodes reported errors" } : Attempt)],
      a.Error = "" ∨ a.Error = "one or more nodes reported errors") :=
  ⟨(doChecks_error_per_attempt sampleEnv (checkerWith 0)).1 (by decide) (by decide),
   ((doChecks_error_per_attempt unreachableNodeEnv detailedChecker).2
      [{ RTT := 60 * Millisecond, Error := "one or more nodes reported errors" }] (by decide)).2.2.1⟩

/-- C13: for every configuration and every environment, every return of
`Check` carries a `nil` error, and `Check` returns whenever the clamped attempt
count is within the allocation limit of the run. The returned result is down
if and only if the verdict of at least one of its attempts was not ok, which
is the case if and only if some attempt carries an error, and the only error
an attempt carries is the fixed text. -/
theorem check_nil_error_down_iff (env : Env) (c : ZkChecker) :
    (max c.Attempts 1 ≤ (env.makeLimit : Int) → ∃ r : Result, Check env c = some (r, none)) ∧
    (∀ (r : Result) (e : Option String), Check env c = some (r, e) →
      e = none ∧
      (r.Down = true ↔
        ∃ i : Nat, (i : Int) < max c.Attempts 1 ∧ attemptOk env c (effectiveTimeout c) i = false) ∧
      (r.Down = true ↔ ∃ a ∈ r.Times, a.Error ≠ "") ∧
      (∀ a ∈ r.Times, a.Error = "" ∨ a.Error = "one or more nodes reported errors")) := by
  refine ⟨fun hl => ⟨_, Check_eq env c hl⟩, ?_⟩
  intro r e h
  obtain ⟨_, rfl, he⟩ := Check_some env c r e h
  refine ⟨he, ?_, ?_, ?_⟩
  · rw [conclude_down_iff _ _ _ _ rfl]
    exact checkTimes_error_iff env c
  · rw [conclude_down_iff _ _ _ _ rfl, conclude_Times]
  · rw [conclude_Times]
    intro a ha
    obtain ⟨i, hi⟩ := List.getElem?_of_mem ha
    obtain ⟨_, rfl⟩ := checkTimes_getElem? env c i a hi
    rw [doCheck_error]
    split_ifs
    · exact Or.inl rfl
    · exact Or.inr rfl

/-- Witness of C13: the detailed run with a node that cannot be reached returns
a `nil` error and a result that is down, whose attempt carries the error. -/
theorem check_nil_error_down_iff_witness :
    (∃ r : Result, Check unreachableNodeEnv detailedChecker = some (r, none)) ∧
    (∃ a ∈ [({ RTT := 60 * Millisecond, Error := "one or more nodes reported errors" } : Attempt)], a.Error ≠ "") :=
  ⟨(check_nil_error_down_iff unreachableNodeEnv detailedChecker).1 (by decide),
   ((check_nil_error_down_iff unreachableNodeEnv detailedChecker).2
      { Title := "zk", Timestamp := 0,
        Times := [{ RTT := 60 * Millisecond, Error := "one or more nodes reported errors" }],
        ThresholdRTT := 0, Healthy := false, Degraded := false, Down := true, Notice := "" }
      none (by decide)).2.2.1.mp rfl⟩

/-- C15: every result returned by `Check` has a notice that is not empty if and
only if it is degraded; a down result and a healthy result have an empty
notice. `Check` returns such a result whenever the clamped attempt count is
within the allocation limit of the run. -/
theorem check_notice_iff_degraded (env : Env) (c : ZkChecker) :
    (∀ (r : Result) (e : Option String), Check env c = some (r, e) →
      (r.Notice ≠ "" ↔ r.Degraded = true) ∧
      (r.Down = true → r.Notice = "") ∧
      (r.Healthy = true → r.Notice = "")) ∧
    (max c.Attempts 1 ≤ (env.makeLimit : Int) →
      ∃ r : Result, Check env c = some (r, none) ∧
        (r.Notice ≠ "" ↔ r.Degraded = true) ∧
        (r.Down = true → r.Notice = "") ∧
        (r.Healthy = true → r.Notice = "")) := by
  refine ⟨?_, ?_⟩
  · intro r e h
    obtain ⟨_, rfl, _⟩ := Check_some env c r e h
    exact conclude_notice _ _ _ _ rfl rfl rfl rfl
  · intro hl
    exact ⟨_, Check_eq env c hl, conclude_notice _ _ _ _ rfl rfl rfl rfl⟩

/-- Witness of C15: a plain run with threshold 50ms over attempts of 60ms is
degraded and carries the notice; with threshold 0 it is healthy without
notice. -/
theorem check_notice_iff_degraded_witness :
    (∃ r : Result, Check sampleEnv (checkerWith (50 * Millisecond)) = some (r, none) ∧
      (r.Notice ≠ "" ↔ r.Degraded = true) ∧ (r.Down = true → r.Notice = "") ∧ (r.Healthy = true → r.Notice = "")) ∧
    (∃ r : Result, Check sampleEnv (checkerWith 0) = some (r, none) ∧
      (r.Notice ≠ "" ↔ r.Degraded = true) ∧ (r.Down = true → r.Notice = "") ∧ (r.Healthy = true → r.Notice = "")) :=
  ⟨(check_notice_iff_degraded sampleEnv (checkerWith (50 * Millisecond))).2 (by decide),
   (check_notice_iff_degraded sampleEnv (checkerWith 0)).2 (by decide)⟩

/-- C16: for every configuration and every input result, the result of
`conclude` records the threshold of the configuration, in the down, the
degraded and the healthy outcome alike, and has the title, the timestamp and
the attempts of the input. -/
theorem conclude_records_threshold (cs : Result → Stats) (fd : Duration → String) (c : ZkChecker) (r : Result) :
    (conclude cs fd c r).ThresholdRTT = c.ThresholdRTT ∧
    (conclude cs fd c r).Title = r.Title ∧
    (conclude cs fd c r).Timestamp = r.Timestamp ∧
    (conclude cs fd c r).Times = r.Times := by
  unfold conclude
  simp only
  split_ifs <;> exact ⟨rfl, rfl, rfl, rfl⟩

/-- Counterexample to C14 as stated: for a configuration with no endpoint
`Check` returns a `nil` error, and a result whose two attempts were run. -/
theorem check_zero_endpoints_counterexample :
    (noServers false).Servers = [] ∧
    Check emptyAnswerEnv (noServers false) = some
      ({ Title := "zk", Timestamp := 0,
         Times := [{ RTT := 60 * Millisecond, Error := "" }, { RTT := 60 * Millisecond, Error := "" }],
         ThresholdRTT := 0, Healthy := true, Degraded := false, Down := false, Notice := "" }, none) := by
  decide

/-- C14, amended: for a configuration with no endpoint `Check` returns as for
every configuration, whenever the clamped attempt count is within the
allocation limit of the run, and every return carries a `nil` error. The
returned result holds `max N 1` attempts; each of them carries the time it
measured, and its error is decided by the answer of the transport to the query
of that attempt with the empty server list. -/
theorem check_zero_endpoints (env : Env) (c : ZkChecker) (h : c.Servers = []) :
    (max c.Attempts 1 ≤ (env.makeLimit : Int) → ∃ r : Result, Check env c = some (r, none)) ∧
    (∀ (r : Result) (e : Option String), Check env c = some (r, e) →
      e = none ∧
      (r.Times.length : Int) = max c.Attempts 1 ∧
      (∀ (i : Nat) (a : Attempt), r.Times[i]? = some a →
        a.RTT = env.since i ∧
        a.Error =
          (if (if c.Detailed = true then
                detailedOk (env.FLWSrvr i [] (effectiveTimeout c)).1 (env.FLWSrvr i [] (effectiveTimeout c)).2
              else plainOk (env.FLWRuok i [] (effectiveTimeout c))) = true
            then "" else "one or more nodes reported errors"))) := by
  refine ⟨fun hl => ⟨_, Check_eq env c hl⟩, ?_⟩
  intro r e hC
  obtain ⟨_, rfl, he⟩ := Check_some env c r e hC
  refine ⟨he, ?_, ?_⟩
  · rw [conclude_Times]
    exact checkTimes_length env c
  · rw [conclude_Times]
    intro i a ha
    obtain ⟨_, rfl⟩ := checkTimes_getElem? env c i a ha
    refine ⟨rfl, ?_⟩
    rw [doCheck_error, attemptOk_clamp]
    simp only [attemptOk, h]
    rfl

/-- Witness of C14, amended: the runs without endpoints return, with a `nil`
error, and the plain one holds two attempts. -/
theorem check_zero_endpoints_witness :
    (∃ r : Result, Check emptyAnswerEnv (noServers true) = some (r, none)) ∧
    (([{ RTT := 60 * Millisecond, Error := "" }, { RTT := 60 * Millisecond, Error := "" }] : Attempts).length : Int)
      = max (noServers false).Attempts 1 :=
  ⟨(check_zero_endpoints emptyAnswerEnv (noServers true) rfl).1 (by decide),
   ((check_zero_endpoints emptyAnswerEnv (noServers false) rfl).2
      { Title := "zk", Timestamp := 0,
        Times := [{ RTT := 60 * Millisecond, Error := "" }, { RTT := 60 * Millisecond, Error := "" }],
        ThresholdRTT := 0, Healthy := true, Degraded := false, Down := false, Notice := "" }
      none (by decide)).2.1⟩

/-! ## Properties of the notifier -/

/-- The loop skips a healthy result. -/
theorem notifyLoop_healthy (env : SnsEnv) (s : SNS) (svc : snsSvc) (res : Result) (rest : List Result)
    (calls : List PublishInput) (h : res.Healthy = true) :
    notifyLoop env s svc (res :: rest) calls = notifyLoop env s svc rest calls := by
  simp [notifyLoop, h]

/-- The loop goes on after a delivery that succeeded. -/
theorem notifyLoop_delivered (env : SnsEnv) (s : SNS) (svc : snsSvc) (res : Result) (rest : List Result)
    (calls : List PublishInput) (h : res.Healthy = false) (hs : svc calls.length (alertOf env s res) = none) :
    notifyLoop env s svc (res :: rest) calls = notifyLoop env s svc rest (calls ++ [alertOf env s res]) := by
  have hs' := hs
  simp only [alertOf] at hs'
  simp [notifyLoop, h, sendNotification, hs', alertOf]

/-- The loop stops at a delivery that failed. -/
theorem notifyLoop_failed (env : SnsEnv) (s : SNS) (svc : snsSvc) (res : Result) (rest : List Result)
    (calls : List PublishInput) (e : String) (h : res.Healthy = false)
    (hs : svc calls.length (alertOf env s res) = some e) :
    notifyLoop env s svc (res :: rest) calls = (calls ++ [alertOf env s res], some e) := by
  have hs' := hs
  simp only [alertOf] at hs'
  simp [notifyLoop, h, sendNotification, hs', alertOf]

/-- The alerts of a list that starts with a healthy result. -/
theorem alerts_cons_healthy (env : SnsEnv) (s : SNS) (res : Result) (rest : List Result)
    (h : res.Healthy = true) : alerts env s (res :: rest) = alerts env s rest := by
  simp [alerts, h]

/-- The alerts of a list that starts with a result that is not healthy. -/
theorem alerts_cons_unhealthy (env : SnsEnv) (s : SNS) (res : Result) (rest : List Result)
    (h : res.Healthy = false) : alerts env s (res :: rest) = alertOf env s res :: alerts env s rest := by
  simp [alerts, h]

/-- When every delivery succeeds the loop publishes the alerts of all results
that are not healthy and returns no error. -/
theorem notifyLoop_all_delivered (env : SnsEnv) (s : SNS) (svc : snsSvc) (rs : List Result) :
    ∀ calls : List PublishInput,
      (∀ (k : Nat) (p : PublishInput), (alerts env s rs)[k]? = some p → svc (calls.length + k) p = none) →
      notifyLoop env s svc rs calls = (calls ++ alerts env s rs, none) := by
  induction rs with
  | nil => intro calls _; simp [notifyLoop, alerts]
  | cons res rest ih =>
    intro calls hok
    cases hh : res.Healthy with
    | true =>
      rw [notifyLoop_healthy env s svc res rest calls hh, alerts_cons_healthy env s res rest hh]
      rw [alerts_cons_healthy env s res rest hh] at hok
      exact ih calls hok
    | false =>
      rw [alerts_cons_unhealthy env s res rest hh] at hok
      have h0 : svc calls.length (alertOf env s res) = none := by
        have := hok 0 (alertOf env s res) (by simp)
        simpa using this
      rw [notifyLoop_delivered env s svc res rest calls hh h0, alerts_cons_unhealthy env s res rest hh]
      rw [ih (calls ++ [alertOf env s res])]
      · simp
      · intro k p hk
        have := hok (k + 1) p (by simpa using hk)
        simpa [Nat.add_assoc, Nat.add_comm 1 k] using this

/-- When the deliveries for `pre` succeed and the delivery for the next result
fails, the loop stops there with that error. -/
theorem notifyLoop_first_failure (env : SnsEnv) (s : SNS) (svc : snsSvc) (x : Result) (post : List Result)
    (e : String) (hx : x.Healthy = false) (pre : List Result) :
    ∀ calls : List PublishInput,
      (∀ (k : Nat) (p : PublishInput), (alerts env s pre)[k]? = some p → svc (calls.length + k) p = none) →
      svc (calls.length + (alerts env s pre).length) (alertOf env s x) = some e →
      notifyLoop env s svc (pre ++ x :: post) calls = (calls ++ alerts env s pre ++ [alertOf env s x], some e) := by
  induction pre with
  | nil =>
    intro calls _ hfail
    have hf : svc calls.length (alertOf env s x) = some e := by simpa [alerts] using hfail
    simpa [alerts] using notifyLoop_failed env s svc x post calls e hx hf
  | cons res rest ih =>
    intro calls hok hfail
    cases hh : res.Healthy with
    | true =>
      rw [alerts_cons_healthy env s res rest hh] at hok hfail ⊢
      rw [List.cons_append, notifyLoop_healthy env s svc res _ calls hh]
      exact ih calls hok hfail
    | false =>
      rw [alerts_cons_unhealthy env s res rest hh] at hok hfail ⊢
      have h0 : svc calls.length (alertOf env s res) = none := by
        have := hok 0 (alertOf env s res) (by simp)
        simpa using this
      rw [List.cons_append, notifyLoop_delivered env s svc res _ calls hh h0]
      rw [ih (calls ++ [alertOf env s res])]
      · simp
      · intro k p hk
        have := hok (k + 1) p (by simpa using hk)
        simpa [Nat.add_assoc, Nat.add_comm 1 k] using this
      · have : calls.length + (alertOf env s res :: alerts env s rest).length
            = (calls ++ [alertOf env s res]).length + (alerts env s rest).length := by
          simp; omega
        rw [← this]
        exact hfail

/-- The loop only adds calls, and it returns an error exactly when one of the
calls it added failed. -/
theorem notifyLoop_error_iff (env : SnsEnv) (s : SNS) (svc : snsSvc) (rs : List Result) :
    ∀ calls : List PublishInput, ∃ ext : List PublishInput,
      (notifyLoop env s svc rs calls).1 = calls ++ ext ∧
      ((notifyLoop env s svc rs calls).2 ≠ none ↔
        ∃ (k : Nat) (p : PublishInput), ext[k]? = some p ∧ svc (calls.length + k) p ≠ none) := by
  induction rs with
  | nil =>
    intro calls
    exact ⟨[], by simp [notifyLoop], by simp [notifyLoop]⟩
  | cons res rest ih =>
    intro calls
    cases hh : res.Healthy with
    | true =>
      rw [notifyLoop_healthy env s svc res rest calls hh]
      exact ih calls
    | false =>
      cases hs : svc calls.length (alertOf env s res) with
      | some e =>
        rw [notifyLoop_failed env s svc res rest calls e hh hs]
        refine ⟨[alertOf env s res], rfl, ?_⟩
        constructor
        · intro _
          exact ⟨0, alertOf env s res, rfl, by simp [hs]⟩
        · intro _
          simp
      | none =>
        rw [notifyLoop_delivered env s svc res rest calls hh hs]
        obtain ⟨ext, h1, h2⟩ := ih (calls ++ [alertOf env s res])
        refine ⟨alertOf env s res :: ext, by simp [h1], ?_⟩
        rw [h2]
        constructor
        · rintro ⟨k, p, hk, hne⟩
          refine ⟨k + 1, p, by simpa using hk, ?_⟩
          have hidx : (calls ++ [alertOf env s res]).length + k = calls.length + (k + 1) := by
            simp; omega
          rwa [hidx] at hne
        · rintro ⟨k, p, hk, hne⟩
          cases k with
          | zero =>
            simp only [List.getElem?_cons_zero, Option.some.injEq] at hk
            subst hk
            exact absurd hs hne
          | succ k =>
            refine ⟨k, p, by simpa using hk, ?_⟩
            have hidx : (calls ++ [alertOf env s res]).length + k = calls.length + (k + 1) := by
              simp; omega
            rwa [hidx]

/-- C17: when the delivery of every alert succeeds, `Notify` calls `Publish`
exactly once for each result that is not healthy, in list order, and not at all
for a healthy result, and returns `nil`; the number of calls is the number of
results that are not healthy. -/
theorem notify_all_delivered (env : SnsEnv) (s : SNS) (r : List Result)
    (hok : ∀ (k : Nat) (p : PublishInput), (alerts env s r)[k]? = some p → env.newSns (awsConfig s) k p = none) :
    (Notify env s r).2 = none ∧
    (Notify env s r).1 = (r.filter (fun res => !res.Healthy)).map (alertOf env s) ∧
    (Notify env s r).1.length = r.countP (fun res => !res.Healthy) := by
  have h := notifyLoop_all_delivered env s (env.newSns (awsConfig s)) r []
    (by intro k p hk; simpa using hok k p hk)
  have hN : Notify env s r = (alerts env s r, none) := by
    simpa [Notify] using h
  rw [hN]
  refine ⟨rfl, rfl, ?_⟩
  simp [alerts, List.countP_eq_length_filter]

/-- Witness of C17: of two healthy and two down results, the two down ones are
published, in order. -/
theorem notify_all_delivered_witness :
    (Notify allDelivered sampleSNS
      [finalResult "a" true, finalResult "b" false, finalResult "c" false, finalResult "d" true]).2 = none ∧
    (Notify allDelivered sampleSNS
      [finalResult "a" true, finalResult "b" false, finalResult "c" false, finalResult "d" true]).1.length = 2 :=
  ⟨(notify_all_delivered allDelivered sampleSNS _ (fun _ _ _ => rfl)).1,
   (notify_all_delivered allDelivered sampleSNS
      [finalResult "a" true, finalResult "b" false, finalResult "c" false, finalResult "d" true]
      (fun _ _ _ => rfl)).2.2.trans (by decide)⟩

/-- C18: when the deliveries for the results before `x` succeed and the
delivery of the alert of `x`, which is not healthy, fails with `e`, `Notify`
returns `e`; the calls of `Publish` are one for each result before `x` that is
not healthy, then the one for `x`, and none for the results after `x`. For
every list, `Notify` returns an error if and only if one of the calls it made
failed. -/
theorem notify_fail_fast (env : SnsEnv) (s : SNS) (front back : List Result) (x : Result) (e : String)
    (hx : x.Healthy = false)
    (hfront : ∀ (k : Nat) (p : PublishInput),
      (alerts env s front)[k]? = some p → env.newSns (awsConfig s) k p = none)
    (hfail : env.newSns (awsConfig s) (alerts env s front).length (alertOf env s x) = some e) :
    (Notify env s (front ++ x :: back)).2 = some e ∧
    (Notify env s (front ++ x :: back)).1 =
      (front.filter (fun res => !res.Healthy)).map (alertOf env s) ++ [alertOf env s x] ∧
    (∀ rs : List Result, (Notify env s rs).2 ≠ none ↔
      ∃ (k : Nat) (p : PublishInput), (Notify env s rs).1[k]? = some p ∧ env.newSns (awsConfig s) k p ≠ none) := by
  have h := notifyLoop_first_failure env s (env.newSns (awsConfig s)) x back e hx front []
    (by intro k p hk; simpa using hfront k p hk) (by simpa using hfail)
  have hN : Notify env s (front ++ x :: back) = (alerts env s front ++ [alertOf env s x], some e) := by
    simpa [Notify] using h
  refine ⟨by rw [hN], by rw [hN]; rfl, ?_⟩
  intro rs
  obtain ⟨ext, h1, h2⟩ := notifyLoop_error_iff env s (env.newSns (awsConfig s)) rs []
  simp only [List.nil_append, List.length_nil, Nat.zero_add] at h1 h2
  show (notifyLoop env s (env.newSns (awsConfig s)) rs []).2 ≠ none ↔
    ∃ (k : Nat) (p : PublishInput), (notifyLoop env s (env.newSns (awsConfig s)) rs []).1[k]? = some p ∧
      env.newSns (awsConfig s) k p ≠ none
  rw [h1]
  exact h2

/-- Witness of C18: the second call fails, so of three down results after a
healthy one the first is delivered, the second returns the error and the third
is not published. -/
theorem notify_fail_fast_witness :
    (Notify secondCallFails sampleSNS
      ([finalResult "a" true, finalResult "b" false] ++ finalResult "c" false :: [finalResult "d" false])).2
      = some "delivery failed" ∧
    (Notify secondCallFails sampleSNS
      ([finalResult "a" true, finalResult "b" false] ++ finalResult "c" false :: [finalResult "d" false])).1.length = 2 :=
  ⟨(notify_fail_fast secondCallFails sampleSNS [finalResult "a" true, finalResult "b" false] [finalResult "d" false]
      (finalResult "c" false) "delivery failed" rfl
      (fun k p hk => match k, hk with
        | 0, _ => rfl
        | k + 1, hk => by simp [alerts, finalResult] at hk)
      rfl).1,
   (congrArg List.length (notify_fail_fast secondCallFails sampleSNS [finalResult "a" true, finalResult "b" false]
      [finalResult "d" false] (finalResult "c" false) "delivery failed" rfl
      (fun k p hk => match k, hk with
        | 0, _ => rfl
        | k + 1, hk => by simp [alerts, finalResult] at hk)
      rfl).2.1).trans (by decide)⟩

/-! ## Order of the node responses, and no node response -/

/-- C19: the detailed verdict does not depend on the order of the node
responses. For a list of roles and any permutation of it, the role-counting
loop started from the same verdict ends in the same state, counters, `ok` and
standalone marker alike, and the verdict of the attempt is the same. -/
theorem detailed_verdict_perm (l₁ l₂ : List Mode) (ok : Bool) (h : l₁.Perm l₂) :
    (roleLoop l₁ ok).ok = (roleLoop l₂ ok).ok ∧
    roleLoop l₁ ok = roleLoop l₂ ok ∧
    detailedOk l₁ ok = detailedOk l₂ ok ∧
    (∀ (n : Nat) (s : RoleState), l₁.foldl (roleStep n) s = l₂.foldl (roleStep n) s) := by
  have hfold : ∀ (n : Nat) (s : RoleState), l₁.foldl (roleStep n) s = l₂.foldl (roleStep n) s := by
    intro n s
    rw [foldl_roleStep, foldl_roleStep, h.count_eq, h.count_eq]
    simp only [h.mem_iff]
  have hloop : roleLoop l₁ ok = roleLoop l₂ ok := by
    unfold roleLoop
    rw [h.length_eq]
    exact hfold _ _
  refine ⟨by rw [hloop], hloop, ?_, hfold⟩
  unfold detailedOk
  rw [hloop, h.length_eq]

/-- Witness of C19: the leader first or last among two followers. -/
theorem detailed_verdict_perm_witness :
    detailedOk [ModeLeader, ModeFollower, ModeFollower] true = detailedOk [ModeFollower, ModeFollower, ModeLeader] true ∧
    detailedOk [ModeUnknown, ModeStandalone] true = detailedOk [ModeStandalone, ModeUnknown] true :=
  ⟨(detailed_verdict_perm [ModeLeader, ModeFollower, ModeFollower] [ModeFollower, ModeFollower, ModeLeader] true
      (by decide)).2.2.1,
   (detailed_verdict_perm [ModeUnknown, ModeStandalone] [ModeStandalone, ModeUnknown] true (by decide)).2.2.1⟩

/-- C20: in detailed mode the empty list of node responses is judged not ok for
either starting verdict, in plain mode it is judged ok. Hence for a
configuration without endpoints, when the transport answers the empty server
list with no node response, every result returned by `Check` is down in
detailed mode and not down in plain mode, and `Check` returns such a result
whenever the clamped attempt count is within the allocation limit of the
run. -/
theorem detailed_empty_not_ok (env : Env) (c : ZkChecker) (h : c.Servers = []) :
    (∀ ok : Bool, detailedOk [] ok = false) ∧
    plainOk [] = true ∧
    (c.Detailed = true → (∀ (i : Nat) (t : Duration), (env.FLWSrvr i [] t).1 = []) →
      (∀ (r : Result) (e : Option String), Check env c = some (r, e) → r.Down = true) ∧
      (max c.Attempts 1 ≤ (env.makeLimit : Int) →
        ∃ r : Result, Check env c = some (r, none) ∧ r.Down = true)) ∧
    (c.Detailed = false → (∀ (i : Nat) (t : Duration), env.FLWRuok i [] t = []) →
      (∀ (r : Result) (e : Option String), Check env c = some (r, e) → r.Down = false) ∧
      (max c.Attempts 1 ≤ (env.makeLimit : Int) →
        ∃ r : Result, Check env c = some (r, none) ∧ r.Down = false)) := by
  have hd : ∀ ok : Bool, detailedOk [] ok = false := by
    intro ok
    cases ok <;> rfl
  refine ⟨hd, rfl, ?_, ?_⟩
  · intro hdet hempty
    have hdown : (conclude env.ComputeStats env.fmtDuration (clampAttempts c)
        { Title := c.Name, Timestamp := env.Timestamp, Times := checkTimes env c,
          ThresholdRTT := 0, Healthy := false, Degraded := false, Down := false, Notice := "" }).Down = true := by
      rw [conclude_down_iff _ _ _ _ rfl]
      refine (checkTimes_error_iff env c).mpr ⟨0, by omega, ?_⟩
      simp only [attemptOk, hdet, h, if_true, hempty]
      exact hd _
    refine ⟨?_, ?_⟩
    · intro r e hC
      obtain ⟨_, rfl, _⟩ := Check_some env c r e hC
      exact hdown
    · intro hl
      exact ⟨_, Check_eq env c hl, hdown⟩
  · intro hplain hempty
    have hup : (conclude env.ComputeStats env.fmtDuration (clampAttempts c)
        { Title := c.Name, Timestamp := env.Timestamp, Times := checkTimes env c,
          ThresholdRTT := 0, Healthy := false, Degraded := false, Down := false, Notice := "" }).Down = false := by
      cases hdown : (conclude env.ComputeStats env.fmtDuration (clampAttempts c)
          { Title := c.Name, Timestamp := env.Timestamp, Times := checkTimes env c,
            ThresholdRTT := 0, Healthy := false, Degraded := false, Down := false, Notice := "" }).Down with
      | false => rfl
      | true =>
        rw [conclude_down_iff _ _ _ _ rfl] at hdown
        obtain ⟨i, _, hv⟩ := (checkTimes_error_iff env c).mp hdown
        simp [attemptOk, hplain, h, hempty, plainOk] at hv
    refine ⟨?_, ?_⟩
    · intro r e hC
      obtain ⟨_, rfl, _⟩ := Check_some env c r e hC
      exact hup
    · intro hl
      exact ⟨_, Check_eq env c hl, hup⟩

/-- Witness of C20: without endpoints and with a transport that answers with
no node response, the detailed run is down and the plain run is not. -/
theorem detailed_empty_not_ok_witness :
    (∃ r : Result, Check emptyAnswerEnv (noServers true) = some (r, none) ∧ r.Down = true) ∧
    (∃ r : Result, Check emptyAnswerEnv (noServers false) = some (r, none) ∧ r.Down = false) :=
  ⟨((detailed_empty_not_ok emptyAnswerEnv (noServers true) rfl).2.2.1 rfl (fun _ _ => rfl)).2 (by decide),
   ((detailed_empty_not_ok emptyAnswerEnv (noServers false) rfl).2.2.2 rfl (fun _ _ => rfl)).2 (by decide)⟩

end Checkup
